import Mathlib

/-!
A shallow embedding of `tap_mongodb/sync_strategies/incremental.py`
(incremental sync strategy of pipelinewise-tap-mongodb), together with
proofs about its bookmark lifecycle, query construction and message
emission.

Modelling conventions:
* Python dynamic values appearing as row fields / bookmark entries are the
  inductive `Value` (floats are outside the embedding).
* Python dicts keyed by strings are association lists; `setKey` has the
  semantics of `d[k] = v` (replace the existing binding, else append).
* The mutable process-wide state threads explicitly; `copy.deepcopy(state)`
  at a `STATE`-message emission becomes capturing the current state value
  in the message.
* Wall-clock reads (`time.time()`), the checkpoint period
  (`common.UPDATE_BOOKMARK_PERIOD`) and the destination stream name
  (`common.calculate_destination_stream_name`) are parameters.
* The cursor is the list of rows it yields; logging, timing metrics and the
  per-run extraction timestamp are elided (they carry no bookmark/message
  content relevant here).
-/

/-- A scalar (non-float) Python/BSON value. -/
inductive Scalar where
  | null : Scalar
  | bool : Bool → Scalar
  | int : Int → Scalar
  | str : String → Scalar
  | dateTime : Int → Scalar
  | objectId : String → Scalar
deriving DecidableEq, Repr

/-- A (non-float) Python/BSON value as it appears in rows and bookmarks.
Arrays are modelled one level deep (arrays of scalars): the code under
verification only ever tests a container for emptiness. -/
inductive Value where
  | null : Value
  | bool : Bool → Value
  | int : Int → Value
  | str : String → Value
  | list : List Scalar → Value
  | dateTime : Int → Value
  | objectId : String → Value
deriving DecidableEq, Repr

/-- Python truthiness (`if v:`) for the embedded values. -/
def truthy : Value → Bool
  | Value.null => false
  | Value.bool b => b
  | Value.int n => n != 0
  | Value.str s => !(s == "")
  | Value.list l => !l.isEmpty
  | Value.dateTime _ => true
  | Value.objectId _ => true

/-- Python truthiness of a `dict.get` result (`None` when absent). -/
def truthyOpt : Option Value → Bool
  | none => false
  | some v => truthy v

/-- `v.__class__.__name__` for the embedded values. -/
def className : Value → String
  | Value.null => "NoneType"
  | Value.bool _ => "bool"
  | Value.int _ => "int"
  | Value.str _ => "str"
  | Value.list _ => "list"
  | Value.dateTime _ => "datetime"
  | Value.objectId _ => "ObjectId"

/-- Order on values, used to state "ascending by the replication key" and to
model the source driver's inclusive lower-bound comparison: same-kind values
compare by their payload, anything else only by equality. -/
def Value.le (a b : Value) : Bool :=
  match a, b with
  | Value.int x, Value.int y => decide (x ≤ y)
  | Value.str x, Value.str y => decide (x ≤ y)
  | Value.dateTime x, Value.dateTime y => decide (x ≤ y)
  | Value.bool x, Value.bool y => !x || y
  | Value.objectId x, Value.objectId y => decide (x ≤ y)
  | a, b => decide (a = b)

/-- A Python dict with string keys: the per-stream bookmark dict and a row. -/
abbrev Dict := List (String × Value)

/-- A record yielded by the cursor. -/
abbrev Row := Dict

/-- `d[k] = v`: replace the first binding of `k`, else append. -/
def setKey {β : Type} : List (String × β) → String → β → List (String × β)
  | [], k, v => [(k, v)]
  | (k', v') :: rest, k, v =>
    if k' = k then (k, v) :: rest else (k', v') :: setKey rest k v

/-- The process-wide singer state: `{'bookmarks': {stream_id: {...}}}`. -/
structure State where
  bookmarks : List (String × Dict)
deriving DecidableEq, Repr

/-- `singer.get_bookmark(state, tap_stream_id, key)`:
`state.get('bookmarks', {}).get(tap_stream_id, {}).get(key)`. -/
def get_bookmark (state : State) (tap_stream_id key : String) : Option Value :=
  match List.lookup tap_stream_id state.bookmarks with
  | some d => List.lookup key d
  | none => none

/-- `singer.write_bookmark(state, tap_stream_id, key, v)`: ensure the path
`['bookmarks', tap_stream_id]` exists, then assign `key`. -/
def write_bookmark (state : State) (tap_stream_id key : String) (v : Value) : State :=
  let d := (List.lookup tap_stream_id state.bookmarks).getD []
  ⟨setKey state.bookmarks tap_stream_id (setKey d key v)⟩

/-- Modelled from the spec: `common.class_to_string` (repository code not
under src/). Per the spec it serializes a replication-key value "to a string
plus a type tag", round-tripping integers, strings, date/time values and the
source-native identifier type; the second argument is the type tag the caller
computed from the value's class name. -/
def class_to_string (v : Value) (_typeName : String) : String :=
  match v with
  | Value.null => "None"
  | Value.bool b => if b then "True" else "False"
  | Value.int n => toString n
  | Value.str s => s
  | Value.list _ => ""
  | Value.dateTime ms => toString ms
  | Value.objectId s => s

/-- Parse a run of decimal digits, most significant first. -/
def digitsNatAux : List Char → Nat → Option Nat
  | [], acc => some acc
  | c :: cs, acc =>
    let n := c.toNat
    if 48 ≤ n && n ≤ 57 then digitsNatAux cs (acc * 10 + (n - 48)) else none

/-- Parse a non-empty digit string as a natural number. -/
def digitsNat : List Char → Option Nat
  | [] => none
  | c :: cs => digitsNatAux (c :: cs) 0

/-- Parse a decimal integer string (optional leading minus sign). -/
def strToInt : String → Option Int
  | s =>
    match s.data with
    | '-' :: rest => (digitsNat rest).map (fun n => -(n : Int))
    | cs => (digitsNat cs).map Int.ofNat

/-- Modelled from the spec: `common.string_to_class` (repository code not
under src/). Per the spec it deserializes the stored string "back into a
native comparable value" as directed by the stored type tag. -/
def string_to_class (v : Value) (typeTag : Option Value) : Value :=
  match typeTag with
  | some (Value.str "int") =>
    match v with
    | Value.str s =>
      match strToInt s with
      | some n => Value.int n
      | none => Value.str s
    | _ => v
  | some (Value.str "datetime") =>
    match v with
    | Value.str s =>
      match strToInt s with
      | some n => Value.dateTime n
      | none => Value.str s
    | _ => v
  | some (Value.str "ObjectId") =>
    match v with
    | Value.str s => Value.objectId s
    | _ => v
  | _ => v

/-- `update_bookmark(row, state, tap_stream_id, replication_key_name)`
(incremental.py lines 16-41): read the replication key off the row; when the
value is truthy, serialize it and overwrite the
`replication_key_value`/`replication_key_type` bookmarks.  The key name is
optional because `sync_collection` passes `stream_metadata.get('replication-key')`,
which may be `None` (rows are string-keyed, so `row.get(None)` is `None`). -/
def update_bookmark (row : Row) (state : State) (tap_stream_id : String)
    (replication_key_name : Option String) : State :=
  let replication_key_value :=
    match replication_key_name with
    | some k => List.lookup k row
    | none => none
  match replication_key_value with
  | some v =>
    if truthy v then
      let replication_key_type := className v
      let replication_key_value_bookmark := class_to_string v replication_key_type
      let state1 := write_bookmark state tap_stream_id "replication_key_value"
        (Value.str replication_key_value_bookmark)
      write_bookmark state1 tap_stream_id "replication_key_type"
        (Value.str replication_key_type)
    else state
  | none => state

/-- The `find_filter` dict built by `sync_collection` (lines 98-103):
either `{}` or `{replication_key_name: {'gte': bound}}`.  The key is
optional because the metadata may lack a replication-key designation. -/
inductive FindFilter where
  | empty : FindFilter
  | gte : Option String → Value → FindFilter
deriving DecidableEq, Repr

/-- Lines 98-103 of incremental.py: start from the empty filter; when the
stored `replication_key_value` is truthy, add the inclusive lower bound
deserialized via the stored `replication_key_type`. -/
def buildFindFilter (replication_key_name : Option String) (stream_state : Dict) : FindFilter :=
  match List.lookup "replication_key_value" stream_state with
  | some v =>
    if truthy v then
      FindFilter.gte replication_key_name
        (string_to_class v (List.lookup "replication_key_type" stream_state))
    else FindFilter.empty
  | none => FindFilter.empty

/-- Modelled from the spec: the source driver's evaluation of the range
filter — the inclusive `≥` comparison of a row against the bound
("boundary inclusive"). -/
def matchesFindFilter : FindFilter → Row → Bool
  | FindFilter.empty, _ => true
  | FindFilter.gte key bound, row =>
    match key with
    | some k =>
      match List.lookup k row with
      | some v => Value.le bound v
      | none => false
    | none => false

/-- A singer message written to the output sink. -/
inductive Message where
  | activateVersion : String → Value → Message
  | stateMsg : State → Message
  | schemaMsg : String → List (String × String) → List String → Message
  | record : String → Row → Value → Message
deriving DecidableEq, Repr

def isActivateMsg : Message → Bool
  | Message.activateVersion _ _ => true
  | _ => false

def isStateMsg : Message → Bool
  | Message.stateMsg _ => true
  | _ => false

def isSchemaMsg : Message → Bool
  | Message.schemaMsg _ _ _ => true
  | _ => false

def isRecordMsg : Message → Bool
  | Message.record _ _ _ => true
  | _ => false

/-- Modelled from the spec: `common.row_to_schema` (repository code not under
src/).  Per the spec the running schema is an accreting map of field name to
inferred type, "mutated by each row that introduces previously-unseen fields,
never pruned", and the change report is by field-name presence only:
"If any field is new (not previously present in the running schema, by name
... independent of value type)". -/
def row_to_schema (schema : List (String × String)) (row : Row) :
    List (String × String) × Bool :=
  let fresh := row.filter (fun p => !((schema.map Prod.fst).contains p.1))
  (schema ++ fresh.map (fun p => (p.1, className p.2)), !fresh.isEmpty)

/-- The accumulator of the streaming loop (lines 116-144): the running
schema, `rows_saved`, the threaded state and the messages written so far. -/
structure LoopAcc where
  schema : List (String × String)
  rows_saved : Nat
  state : State
  messages : List Message
deriving DecidableEq, Repr

/-- The `for row in cursor:` body (lines 120-144), in source order: merge the
row into the running schema and emit a SCHEMA message when it changed; emit
the RECORD message; increment `rows_saved`; advance the bookmark; every
`update_bookmark_period`-th row emit a deep-copied STATE message. -/
def syncLoop (destination tap_stream_id : String) (replication_key_name : Option String)
    (stream_version : Value) (update_bookmark_period : Nat) :
    List Row → LoopAcc → LoopAcc
  | [], acc => acc
  | row :: rest, acc =>
    let rs := row_to_schema acc.schema row
    let msgs1 :=
      if rs.2 then acc.messages ++ [Message.schemaMsg destination rs.1 ["_id"]]
      else acc.messages
    let msgs2 := msgs1 ++ [Message.record destination row stream_version]
    let saved := acc.rows_saved + 1
    let st := update_bookmark row acc.state tap_stream_id replication_key_name
    let msgs3 :=
      if saved % update_bookmark_period == 0 then msgs2 ++ [Message.stateMsg st]
      else msgs2
    syncLoop destination tap_stream_id replication_key_name stream_version
      update_bookmark_period rest ⟨rs.1, saved, st, msgs3⟩

/-- What a run of `sync_collection` produces: the ordered messages written to
the sink, the final state, the row count and the query filter it built. -/
structure SyncResult where
  messages : List Message
  state : State
  rows_saved : Nat
  find_filter : FindFilter
deriving DecidableEq, Repr

/-- Lines 64-71 of incremental.py: `first_run` is the absence of a stored
`version` bookmark; on a first run the version is minted from the wall clock
in milliseconds, otherwise the stored version is reused unchanged. -/
def resolvedVersion (state : State) (tap_stream_id : String) (now_millis : Int) : Value :=
  match get_bookmark state tap_stream_id "version" with
  | none => Value.int now_millis
  | some v => v

/-- `sync_collection` (incremental.py lines 45-151).  `destination` stands
for `common.calculate_destination_stream_name(stream)`,
`replication_key_name` for `metadata.to_map(stream['metadata']).get(()).get('replication-key')`,
`rows` for the records the cursor yields, `now_millis` for
`int(time.time() * 1000)` and `update_bookmark_period` for
`common.UPDATE_BOOKMARK_PERIOD`. -/
def sync_collection (tap_stream_id destination : String)
    (replication_key_name : Option String) (state : State) (rows : List Row)
    (now_millis : Int) (update_bookmark_period : Nat) : SyncResult :=
  let first_run := (get_bookmark state tap_stream_id "version").isNone
  let stream_version := resolvedVersion state tap_stream_id now_millis
  let state1 := write_bookmark state tap_stream_id "version" stream_version
  let msgs0 : List Message :=
    if first_run then [Message.activateVersion destination stream_version] else []
  let stream_state := (List.lookup tap_stream_id state1.bookmarks).getD []
  let msgs1 := msgs0 ++ [Message.stateMsg state1]
  let find_filter := buildFindFilter replication_key_name stream_state
  let acc := syncLoop destination tap_stream_id replication_key_name stream_version
    update_bookmark_period rows ⟨[], 0, state1, msgs1⟩
  ⟨acc.messages ++ [Message.activateVersion destination stream_version],
    acc.state, acc.rows_saved, find_filter⟩

/-- The sequence of `update_bookmark` calls the streaming loop performs on
the state (one per row, in cursor order). -/
def processRows (state : State) (tap_stream_id : String)
    (replication_key_name : Option String) (rows : List Row) : State :=
  rows.foldl (fun st row => update_bookmark row st tap_stream_id replication_key_name) state

/-- The replication-key value of a row when it is truthy (exactly the values
`update_bookmark` acts on). -/
def truthyKeyValue (replication_key_name : Option String) (row : Row) : Option Value :=
  match replication_key_name with
  | some k =>
    match List.lookup k row with
    | some v => if truthy v then some v else none
    | none => none
  | none => none

/-- The last truthy replication-key value of a row list (the value whose
serialization a run over those rows leaves in the bookmark). -/
def lastTruthy (replication_key_name : Option String) : List Row → Option Value
  | [] => none
  | row :: rest =>
    match lastTruthy replication_key_name rest with
    | some v => some v
    | none => truthyKeyValue replication_key_name row

/-- Spec-side count for claim C7 (amended): the number of rows that introduce
at least one previously-unseen field name, judging newness by name presence
only (value types never enter). -/
def newFieldRowCount (seen : List String) : List Row → Nat
  | [] => 0
  | row :: rest =>
    (if row.any (fun p => !(seen.contains p.1)) then 1 else 0)
      + newFieldRowCount (seen ++ row.map Prod.fst) rest

example : truthy (Value.int 0) = false := by decide
example : truthy (Value.str "") = false := by decide
example : update_bookmark [("k", Value.int 0)] ⟨[]⟩ "s" (some "k") = ⟨[]⟩ := by decide
example :
    get_bookmark (update_bookmark [("k", Value.int 3)] ⟨[]⟩ "s" (some "k"))
      "s" "replication_key_value" = some (Value.str "3") := by decide
example :
    buildFindFilter (some "k")
      [("replication_key_value", Value.str "5"), ("replication_key_type", Value.str "int")]
      = FindFilter.gte (some "k") (Value.int 5) := by decide
example :
    buildFindFilter (some "k")
      [("replication_key_value", Value.str ""), ("replication_key_type", Value.str "str")]
      = FindFilter.empty := by decide
example :
    (sync_collection "s" "d" none ⟨[]⟩ [] 7 1000).messages
      = [Message.activateVersion "d" (Value.int 7),
         Message.stateMsg ⟨[("s", [("version", Value.int 7)])]⟩,
         Message.activateVersion "d" (Value.int 7)] := by decide

/-! ## Dictionary and bookmark-store lemmas -/

theorem lookup_setKey_self {β : Type} (l : List (String × β)) (k : String) (v : β) :
    List.lookup k (setKey l k v) = some v := by
  induction l with
  | nil => simp [setKey, List.lookup]
  | cons p rest ih =>
    obtain ⟨k', v'⟩ := p
    by_cases h : k' = k
    · subst h
      simp [setKey, List.lookup]
    · have hbeq : (k == k') = false := beq_eq_false_iff_ne.mpr (Ne.symm h)
      simp [setKey, h, List.lookup, hbeq, ih]

theorem lookup_setKey_ne {β : Type} (l : List (String × β)) (k k' : String) (v : β)
    (h : k' ≠ k) : List.lookup k' (setKey l k v) = List.lookup k' l := by
  have hbeq : (k' == k) = false := beq_eq_false_iff_ne.mpr h
  induction l with
  | nil => simp [setKey, List.lookup, hbeq]
  | cons p rest ih =>
    obtain ⟨k'', v''⟩ := p
    by_cases h2 : k'' = k
    · subst h2
      simp [setKey, List.lookup, hbeq]
    · simp [setKey, h2, List.lookup, ih]

theorem get_bookmark_write_self (s : State) (tap_stream_id k : String) (v : Value) :
    get_bookmark (write_bookmark s tap_stream_id k v) tap_stream_id k = some v := by
  simp [get_bookmark, write_bookmark, lookup_setKey_self]

theorem get_bookmark_write_ne (s : State) (tap_stream_id k k' : String) (v : Value)
    (h : k' ≠ k) :
    get_bookmark (write_bookmark s tap_stream_id k v) tap_stream_id k'
      = get_bookmark s tap_stream_id k' := by
  simp only [get_bookmark, write_bookmark, lookup_setKey_self]
  rw [lookup_setKey_ne _ _ _ _ h]
  cases hl : List.lookup tap_stream_id s.bookmarks with
  | none => simp [List.lookup]
  | some d => simp

/-! ## `update_bookmark` characterization -/

theorem update_bookmark_of_truthy (row : Row) (s : State) (tap_stream_id k : String)
    (v : Value) (hv : List.lookup k row = some v) (ht : truthy v = true) :
    update_bookmark row s tap_stream_id (some k)
      = write_bookmark
          (write_bookmark s tap_stream_id "replication_key_value"
            (Value.str (class_to_string v (className v))))
          tap_stream_id "replication_key_type" (Value.str (className v)) := by
  simp [update_bookmark, hv, ht]

theorem update_bookmark_of_falsy (row : Row) (s : State) (tap_stream_id k : String)
    (v : Value) (hv : List.lookup k row = some v) (ht : truthy v = false) :
    update_bookmark row s tap_stream_id (some k) = s := by
  simp [update_bookmark, hv, ht]

theorem update_bookmark_of_absent (row : Row) (s : State) (tap_stream_id k : String)
    (hv : List.lookup k row = none) :
    update_bookmark row s tap_stream_id (some k) = s := by
  simp [update_bookmark, hv]

theorem update_bookmark_none_key (row : Row) (s : State) (tap_stream_id : String) :
    update_bookmark row s tap_stream_id none = s := rfl

theorem get_value_update_truthy (row : Row) (s : State) (tap_stream_id k : String)
    (v : Value) (hv : List.lookup k row = some v) (ht : truthy v = true) :
    get_bookmark (update_bookmark row s tap_stream_id (some k)) tap_stream_id
        "replication_key_value"
      = some (Value.str (class_to_string v (className v))) := by
  rw [update_bookmark_of_truthy row s tap_stream_id k v hv ht]
  rw [get_bookmark_write_ne _ _ _ _ _ (by decide)]
  exact get_bookmark_write_self _ _ _ _

theorem get_type_update_truthy (row : Row) (s : State) (tap_stream_id k : String)
    (v : Value) (hv : List.lookup k row = some v) (ht : truthy v = true) :
    get_bookmark (update_bookmark row s tap_stream_id (some k)) tap_stream_id
        "replication_key_type"
      = some (Value.str (className v)) := by
  rw [update_bookmark_of_truthy row s tap_stream_id k v hv ht]
  exact get_bookmark_write_self _ _ _ _

/-! ## `lastTruthy` and the state after a sequence of `update_bookmark` calls -/

theorem lastTruthy_append (key : Option String) (l1 l2 : List Row) :
    lastTruthy key (l1 ++ l2)
      = match lastTruthy key l2 with
        | some v => some v
        | none => lastTruthy key l1 := by
  induction l1 with
  | nil =>
    cases h : lastTruthy key l2 <;> simp [lastTruthy, h]
  | cons r l1 ih =>
    have hstep : lastTruthy key ((r :: l1) ++ l2)
        = match lastTruthy key (l1 ++ l2) with
          | some v => some v
          | none => truthyKeyValue key r := rfl
    rw [hstep, ih]
    cases h : lastTruthy key l2 with
    | some w => rfl
    | none =>
      cases h1 : lastTruthy key l1 <;> simp [lastTruthy, h1]

theorem lastTruthy_truthy (key : Option String) (rows : List Row) (v : Value)
    (h : lastTruthy key rows = some v) : truthy v = true := by
  induction rows with
  | nil => simp [lastTruthy] at h
  | cons r rest ih =>
    cases hr : lastTruthy key rest with
    | some w =>
      simp only [lastTruthy, hr] at h
      injection h with h2
      subst h2
      exact ih hr
    | none =>
      simp only [lastTruthy, hr] at h
      cases key with
      | none => simp [truthyKeyValue] at h
      | some k =>
        cases hl : List.lookup k r with
        | none => simp [truthyKeyValue, hl] at h
        | some w =>
          simp only [truthyKeyValue, hl] at h
          by_cases hw : truthy w = true
          · rw [if_pos hw] at h
            injection h with h2
            subst h2
            exact hw
          · rw [if_neg hw] at h
            cases h

theorem lastTruthy_mem (k : String) (rows : List Row) (v : Value)
    (h : lastTruthy (some k) rows = some v) :
    v ∈ rows.filterMap (List.lookup k) := by
  induction rows with
  | nil => simp [lastTruthy] at h
  | cons r rest ih =>
    cases hr : lastTruthy (some k) rest with
    | some w =>
      simp only [lastTruthy, hr] at h
      injection h with h2
      subst h2
      have hm := ih hr
      simp only [List.filterMap_cons]
      cases List.lookup k r <;> simp [hm]
    | none =>
      simp only [lastTruthy, hr] at h
      cases hl : List.lookup k r with
      | none => simp [truthyKeyValue, hl] at h
      | some w =>
        simp only [truthyKeyValue, hl] at h
        by_cases hw : truthy w = true
        · rw [if_pos hw] at h
          injection h with h2
          subst h2
          simp [List.filterMap_cons, hl]
        · rw [if_neg hw] at h
          cases h

theorem processRows_value (s : State) (tap_stream_id k : String) (rows : List Row) :
    get_bookmark (processRows s tap_stream_id (some k) rows) tap_stream_id
        "replication_key_value"
      = match lastTruthy (some k) rows with
        | some v => some (Value.str (class_to_string v (className v)))
        | none => get_bookmark s tap_stream_id "replication_key_value" := by
  induction rows generalizing s with
  | nil => simp [processRows, lastTruthy]
  | cons r rest ih =>
    have hstep : processRows s tap_stream_id (some k) (r :: rest)
        = processRows (update_bookmark r s tap_stream_id (some k)) tap_stream_id
            (some k) rest := by
      simp [processRows]
    rw [hstep, ih]
    cases hr : lastTruthy (some k) rest with
    | some w => simp [lastTruthy, hr]
    | none =>
      simp only [lastTruthy, hr]
      cases hl : List.lookup k r with
      | none =>
        simp [truthyKeyValue, hl, update_bookmark_of_absent r s tap_stream_id k hl]
      | some w =>
        by_cases hw : truthy w = true
        · simp [truthyKeyValue, hl, hw,
            get_value_update_truthy r s tap_stream_id k w hl hw]
        · simp only [Bool.not_eq_true] at hw
          simp [truthyKeyValue, hl, hw,
            update_bookmark_of_falsy r s tap_stream_id k w hl hw]

/-! ## Streaming-loop structure lemmas -/

/-- The messages one loop iteration appends: an optional SCHEMA message, the
RECORD message, and on every `N`th row a STATE snapshot of the just-updated
state. -/
def rowMessages (destination : String) (stream_version : Value) (N : Nat)
    (sch : List (String × String)) (c : Nat) (st : State) (row : Row) : List Message :=
  (if (row_to_schema sch row).2 then
      [Message.schemaMsg destination (row_to_schema sch row).1 ["_id"]]
    else [])
  ++ [Message.record destination row stream_version]
  ++ (if (c + 1) % N == 0 then [Message.stateMsg st] else [])

theorem syncLoop_cons_eq (d i : String) (key : Option String) (ver : Value) (N : Nat)
    (row : Row) (rest : List Row) (acc : LoopAcc) :
    syncLoop d i key ver N (row :: rest) acc
      = syncLoop d i key ver N rest
          ⟨(row_to_schema acc.schema row).1, acc.rows_saved + 1,
            update_bookmark row acc.state i key,
            acc.messages
              ++ rowMessages d ver N acc.schema acc.rows_saved
                  (update_bookmark row acc.state i key) row⟩ := by
  simp only [syncLoop, rowMessages]
  congr 1
  split_ifs <;> simp

theorem syncLoop_append (d i : String) (key : Option String) (ver : Value) (N : Nat)
    (l1 l2 : List Row) (acc : LoopAcc) :
    syncLoop d i key ver N (l1 ++ l2) acc
      = syncLoop d i key ver N l2 (syncLoop d i key ver N l1 acc) := by
  induction l1 generalizing acc with
  | nil => rfl
  | cons r l1 ih =>
    rw [List.cons_append, syncLoop_cons_eq, syncLoop_cons_eq, ih]

theorem syncLoop_messages_shift (d i : String) (key : Option String) (ver : Value)
    (N : Nat) (rows : List Row) (sch : List (String × String)) (c : Nat) (st : State)
    (m0 m : List Message) :
    (syncLoop d i key ver N rows ⟨sch, c, st, m0 ++ m⟩).messages
      = m0 ++ (syncLoop d i key ver N rows ⟨sch, c, st, m⟩).messages := by
  induction rows generalizing sch c st m with
  | nil => rfl
  | cons r rest ih =>
    rw [syncLoop_cons_eq, syncLoop_cons_eq]
    simp only [List.append_assoc]
    exact ih _ _ _ _

theorem syncLoop_messages_decomp (d i : String) (key : Option String) (ver : Value)
    (N : Nat) (rows : List Row) (acc : LoopAcc) :
    (syncLoop d i key ver N rows acc).messages
      = acc.messages
        ++ (syncLoop d i key ver N rows ⟨acc.schema, acc.rows_saved, acc.state, []⟩).messages := by
  have h := syncLoop_messages_shift d i key ver N rows acc.schema acc.rows_saved
    acc.state acc.messages []
  rw [List.append_nil] at h
  exact h

theorem syncLoop_rows_saved (d i : String) (key : Option String) (ver : Value) (N : Nat)
    (rows : List Row) (acc : LoopAcc) :
    (syncLoop d i key ver N rows acc).rows_saved = acc.rows_saved + rows.length := by
  induction rows generalizing acc with
  | nil => simp [syncLoop]
  | cons r rest ih =>
    rw [syncLoop_cons_eq, ih]
    simp
    omega

theorem syncLoop_state_eq (d i : String) (key : Option String) (ver : Value) (N : Nat)
    (rows : List Row) (acc : LoopAcc) :
    (syncLoop d i key ver N rows acc).state = processRows acc.state i key rows := by
  induction rows generalizing acc with
  | nil => rfl
  | cons r rest ih =>
    rw [syncLoop_cons_eq, ih]
    simp [processRows]

/-! ## Message-count lemmas -/

theorem countP_rowMessages_activate (d : String) (ver : Value) (N : Nat)
    (sch : List (String × String)) (c : Nat) (st : State) (row : Row) :
    List.countP isActivateMsg (rowMessages d ver N sch c st row) = 0 := by
  simp only [rowMessages]
  split_ifs <;> simp [isActivateMsg]

theorem countP_rowMessages_state (d : String) (ver : Value) (N : Nat)
    (sch : List (String × String)) (c : Nat) (st : State) (row : Row) :
    List.countP isStateMsg (rowMessages d ver N sch c st row)
      = if (c + 1) % N == 0 then 1 else 0 := by
  simp only [rowMessages]
  split_ifs <;> simp_all [isStateMsg]

theorem countP_rowMessages_schema (d : String) (ver : Value) (N : Nat)
    (sch : List (String × String)) (c : Nat) (st : State) (row : Row) :
    List.countP isSchemaMsg (rowMessages d ver N sch c st row)
      = if (row_to_schema sch row).2 then 1 else 0 := by
  simp only [rowMessages]
  split_ifs <;> simp_all [isSchemaMsg]

theorem syncLoop_count_activate (d i : String) (key : Option String) (ver : Value)
    (N : Nat) (rows : List Row) (acc : LoopAcc) :
    List.countP isActivateMsg (syncLoop d i key ver N rows acc).messages
      = List.countP isActivateMsg acc.messages := by
  induction rows generalizing acc with
  | nil => rfl
  | cons r rest ih =>
    rw [syncLoop_cons_eq, ih]
    simp [List.countP_append, countP_rowMessages_activate]

/-- The arithmetic of periodic checkpointing: one more row emits a checkpoint
exactly when the new row count is divisible by the period. -/
theorem checkpoint_step (c l N : Nat) :
    (if (c + 1) % N == 0 then 1 else 0) + ((c + 1 + l) / N - (c + 1) / N)
      = (c + (l + 1)) / N - c / N := by
  have hsd := Nat.succ_div c N
  have hmono : (c + 1) / N ≤ (c + 1 + l) / N :=
    Nat.div_le_div_right (by omega)
  have harr : c + (l + 1) = c + 1 + l := by omega
  rw [harr]
  by_cases hm : (c + 1) % N = 0
  · have hd : N ∣ (c + 1) := Nat.dvd_of_mod_eq_zero hm
    rw [if_pos hd] at hsd
    rw [show ((c + 1) % N == 0) = true by simp [hm]]
    simp only [if_true]
    generalize hA : (c + 1 + l) / N = A at hmono
    generalize hB : (c + 1) / N = B at hsd hmono
    generalize ha : c / N = a at hsd
    omega
  · have hd : ¬N ∣ (c + 1) := by
      intro hdd
      obtain ⟨k, hk⟩ := hdd
      exact hm (by simp [hk, Nat.mul_mod_right])
    rw [if_neg hd] at hsd
    rw [show ((c + 1) % N == 0) = false by simp [hm]]
    simp only [Bool.false_eq_true, if_false]
    generalize hA : (c + 1 + l) / N = A at hmono
    generalize hB : (c + 1) / N = B at hsd hmono
    generalize ha : c / N = a at hsd
    omega

theorem syncLoop_count_state (d i : String) (key : Option String) (ver : Value)
    (N : Nat) (rows : List Row) (acc : LoopAcc) :
    List.countP isStateMsg (syncLoop d i key ver N rows acc).messages
      = List.countP isStateMsg acc.messages
        + ((acc.rows_saved + rows.length) / N - acc.rows_saved / N) := by
  induction rows generalizing acc with
  | nil => simp [syncLoop]
  | cons r rest ih =>
    rw [syncLoop_cons_eq, ih]
    simp only [List.countP_append, countP_rowMessages_state, List.length_cons]
    rw [add_assoc, checkpoint_step]

theorem any_eq_not_isEmpty_filter {α : Type} (l : List α) (p : α → Bool) :
    l.any p = !(l.filter p).isEmpty := by
  induction l with
  | nil => rfl
  | cons a l ih => by_cases h : p a <;> simp [List.filter_cons, h, ih]

theorem syncLoop_count_schema (d i : String) (key : Option String) (ver : Value)
    (N : Nat) (rows : List Row) :
    ∀ (acc : LoopAcc) (seen : List String),
      (∀ n : String, n ∈ acc.schema.map Prod.fst ↔ n ∈ seen) →
      List.countP isSchemaMsg (syncLoop d i key ver N rows acc).messages
        = List.countP isSchemaMsg acc.messages + newFieldRowCount seen rows := by
  induction rows with
  | nil =>
    intro acc seen _
    simp [syncLoop, newFieldRowCount]
  | cons r rest ih =>
    intro acc seen hinv
    have hcont : ∀ n : String,
        ((acc.schema.map Prod.fst).contains n) = (seen.contains n) := by
      intro n
      have h1 : (acc.schema.map Prod.fst).contains n = true ↔ n ∈ acc.schema.map Prod.fst :=
        List.elem_iff
      have h2 : seen.contains n = true ↔ n ∈ seen := List.elem_iff
      exact Bool.coe_iff_coe.mp (h1.trans ((hinv n).trans h2.symm))
    have hch : (row_to_schema acc.schema r).2 = r.any (fun p => !(seen.contains p.1)) := by
      have hfun : (fun p : String × Value => !((acc.schema.map Prod.fst).contains p.1))
          = (fun p : String × Value => !(seen.contains p.1)) :=
        funext fun p => by rw [hcont p.1]
      calc (row_to_schema acc.schema r).2
          = !(r.filter (fun p => !((acc.schema.map Prod.fst).contains p.1))).isEmpty := rfl
        _ = r.any (fun p => !((acc.schema.map Prod.fst).contains p.1)) :=
            (any_eq_not_isEmpty_filter _ _).symm
        _ = r.any (fun p => !(seen.contains p.1)) := by rw [hfun]
    have hnames : (row_to_schema acc.schema r).1.map Prod.fst
        = acc.schema.map Prod.fst
          ++ (r.filter (fun p => !((acc.schema.map Prod.fst).contains p.1))).map Prod.fst := by
      simp [row_to_schema, List.map_map, Function.comp]
    have hinv2 : ∀ n : String,
        n ∈ (row_to_schema acc.schema r).1.map Prod.fst ↔ n ∈ seen ++ r.map Prod.fst := by
      intro n
      rw [hnames]
      constructor
      · intro hn
        rcases List.mem_append.mp hn with h | h
        · exact List.mem_append.mpr (Or.inl ((hinv n).mp h))
        · rcases List.mem_map.mp h with ⟨p, hpf, rfl⟩
          have hpr : p ∈ r := (List.mem_filter.mp hpf).1
          exact List.mem_append.mpr (Or.inr (List.mem_map.mpr ⟨p, hpr, rfl⟩))
      · intro hn
        rcases List.mem_append.mp hn with h | h
        · exact List.mem_append.mpr (Or.inl ((hinv n).mpr h))
        · rcases List.mem_map.mp h with ⟨p, hpr, rfl⟩
          by_cases hs : p.1 ∈ acc.schema.map Prod.fst
          · exact List.mem_append.mpr (Or.inl hs)
          · have hc : (acc.schema.map Prod.fst).contains p.1 = false := by
              rw [← Bool.not_eq_true]
              intro hct
              exact hs (List.elem_iff.mp hct)
            refine List.mem_append.mpr (Or.inr (List.mem_map.mpr ⟨p, ?_, rfl⟩))
            exact List.mem_filter.mpr ⟨hpr, by simp only [hc, Bool.not_false]⟩
    rw [syncLoop_cons_eq]
    rw [ih ⟨(row_to_schema acc.schema r).1, acc.rows_saved + 1,
      update_bookmark r acc.state i key,
      acc.messages ++ rowMessages d ver N acc.schema acc.rows_saved
        (update_bookmark r acc.state i key) r⟩ (seen ++ r.map Prod.fst) hinv2]
    simp only [List.countP_append, countP_rowMessages_schema, hch, newFieldRowCount]
    omega

/-! ## `sync_collection` shape lemmas -/

theorem Value.le_refl (v : Value) : Value.le v v = true := by
  cases v with
  | null => rfl
  | bool b => cases b <;> rfl
  | int n => simp [Value.le]
  | str s => simp [Value.le]
  | list l => simp [Value.le]
  | dateTime n => simp [Value.le]
  | objectId s => simp [Value.le]

theorem sync_collection_messages_shape (tap_stream_id destination : String)
    (key : Option String) (s : State) (rows : List Row) (now_millis : Int) (N : Nat) :
    (sync_collection tap_stream_id destination key s rows now_millis N).messages
      = (if (get_bookmark s tap_stream_id "version").isNone then
            [Message.activateVersion destination (resolvedVersion s tap_stream_id now_millis)]
          else [])
        ++ (Message.stateMsg (write_bookmark s tap_stream_id "version"
              (resolvedVersion s tap_stream_id now_millis))
            :: ((syncLoop destination tap_stream_id key
                  (resolvedVersion s tap_stream_id now_millis) N rows
                  ⟨[], 0, write_bookmark s tap_stream_id "version"
                      (resolvedVersion s tap_stream_id now_millis), []⟩).messages
                ++ [Message.activateVersion destination
                      (resolvedVersion s tap_stream_id now_millis)])) := by
  simp only [sync_collection]
  rw [syncLoop_messages_decomp]
  simp [List.append_assoc]

theorem sync_collection_state_eq (tap_stream_id destination : String)
    (key : Option String) (s : State) (rows : List Row) (now_millis : Int) (N : Nat) :
    (sync_collection tap_stream_id destination key s rows now_millis N).state
      = processRows
          (write_bookmark s tap_stream_id "version" (resolvedVersion s tap_stream_id now_millis))
          tap_stream_id key rows := by
  simp only [sync_collection]
  rw [syncLoop_state_eq]

theorem sync_collection_rows_saved (tap_stream_id destination : String)
    (key : Option String) (s : State) (rows : List Row) (now_millis : Int) (N : Nat) :
    (sync_collection tap_stream_id destination key s rows now_millis N).rows_saved
      = rows.length := by
  simp only [sync_collection]
  rw [syncLoop_rows_saved]
  simp

theorem sync_collection_find_filter (tap_stream_id destination : String)
    (key : Option String) (s : State) (rows : List Row) (now_millis : Int) (N : Nat) :
    (sync_collection tap_stream_id destination key s rows now_millis N).find_filter
      = buildFindFilter key
          ((List.lookup tap_stream_id
            (write_bookmark s tap_stream_id "version"
              (resolvedVersion s tap_stream_id now_millis)).bookmarks).getD []) := by
  simp only [sync_collection]

/-! ## Claim theorems -/

/-- C1: for a run whose cursor yields rows in ascending order of the
replication key, the bookmark that the successive `update_bookmark` calls
leave in the state never regresses: after any longer prefix of the rows the
stored `replication_key_value` serializes a key value that is ≥ (`Value.le`,
or equal to) the one whose serialization was stored after any shorter prefix
of the same run. -/
theorem bookmark_monotone_nondecreasing (tap_stream_id k : String) (s : State)
    (l1 l2 : List Row)
    (hasc : ((l1 ++ l2).filterMap (List.lookup k)).Pairwise
      (fun a b => Value.le a b = true))
    (v1 v2 : Value)
    (h1 : lastTruthy (some k) l1 = some v1)
    (h2 : lastTruthy (some k) (l1 ++ l2) = some v2) :
    get_bookmark (processRows s tap_stream_id (some k) l1) tap_stream_id
        "replication_key_value"
      = some (Value.str (class_to_string v1 (className v1)))
    ∧ get_bookmark (processRows s tap_stream_id (some k) (l1 ++ l2)) tap_stream_id
        "replication_key_value"
      = some (Value.str (class_to_string v2 (className v2)))
    ∧ (v2 = v1 ∨ Value.le v1 v2 = true) := by
  refine ⟨?_, ?_, ?_⟩
  · rw [processRows_value, h1]
  · rw [processRows_value, h2]
  · rw [lastTruthy_append] at h2
    cases hl2 : lastTruthy (some k) l2 with
    | none =>
      rw [hl2] at h2
      rw [h1] at h2
      injection h2 with h
      exact Or.inl h.symm
    | some w =>
      rw [hl2] at h2
      injection h2 with h
      rw [h] at hl2
      right
      have hm1 := lastTruthy_mem k l1 v1 h1
      have hm2 := lastTruthy_mem k l2 v2 hl2
      rw [List.filterMap_append] at hasc
      exact (List.pairwise_append.mp hasc).2.2 v1 hm1 v2 hm2

/-- Witness for C1 at a concrete ascending two-row run. -/
theorem bookmark_monotone_nondecreasing_witness :
    get_bookmark (processRows ⟨[]⟩ "s" (some "k") [[("k", Value.int 1)]]) "s"
        "replication_key_value"
      = some (Value.str (class_to_string (Value.int 1) (className (Value.int 1))))
    ∧ get_bookmark (processRows ⟨[]⟩ "s" (some "k")
          ([[("k", Value.int 1)]] ++ [[("k", Value.int 2)]])) "s"
        "replication_key_value"
      = some (Value.str (class_to_string (Value.int 2) (className (Value.int 2))))
    ∧ (Value.int 2 = Value.int 1 ∨ Value.le (Value.int 1) (Value.int 2) = true) :=
  bookmark_monotone_nondecreasing "s" "k" ⟨[]⟩ [[("k", Value.int 1)]]
    [[("k", Value.int 2)]] (by decide) (Value.int 1) (Value.int 2) (by decide) (by decide)

/-- C5 counterexample: the row carries the non-null value `0` for the
replication key, yet `update_bookmark` leaves the state (with its older
bookmark `"5"`) entirely unchanged — the gate is Python truthiness, not
non-nullness. -/
theorem update_bookmark_nonnull_counterexample :
    List.lookup "k" [("k", Value.int 0)] = some (Value.int 0)
    ∧ Value.int 0 ≠ Value.null
    ∧ update_bookmark [("k", Value.int 0)]
        ⟨[("s", [("replication_key_value", Value.str "5"),
                 ("replication_key_type", Value.str "int")])]⟩ "s" (some "k")
      = ⟨[("s", [("replication_key_value", Value.str "5"),
                 ("replication_key_type", Value.str "int")])]⟩
    ∧ get_bookmark
        (update_bookmark [("k", Value.int 0)]
          ⟨[("s", [("replication_key_value", Value.str "5"),
                   ("replication_key_type", Value.str "int")])]⟩ "s" (some "k"))
        "s" "replication_key_value"
      ≠ some (Value.str (class_to_string (Value.int 0) (className (Value.int 0)))) := by
  decide

/-- C5 (amended): `update_bookmark` overwrites the stored
`replication_key_value` (serialized string) and `replication_key_type`
(type-name tag) exactly when the row's value for the configured replication
key is truthy; it is a no-op when the field is absent, null, or otherwise
falsy. -/
theorem update_bookmark_overwrite_iff_truthy (row : Row) (s : State)
    (tap_stream_id k : String) :
    (∀ v, List.lookup k row = some v → truthy v = true →
      get_bookmark (update_bookmark row s tap_stream_id (some k)) tap_stream_id
          "replication_key_value"
        = some (Value.str (class_to_string v (className v)))
      ∧ get_bookmark (update_bookmark row s tap_stream_id (some k)) tap_stream_id
          "replication_key_type"
        = some (Value.str (className v)))
    ∧ (∀ v, List.lookup k row = some v → truthy v = false →
        update_bookmark row s tap_stream_id (some k) = s)
    ∧ (List.lookup k row = none →
        update_bookmark row s tap_stream_id (some k) = s) :=
  ⟨fun v hv ht =>
    ⟨get_value_update_truthy row s tap_stream_id k v hv ht,
     get_type_update_truthy row s tap_stream_id k v hv ht⟩,
   fun v hv ht => update_bookmark_of_falsy row s tap_stream_id k v hv ht,
   fun hv => update_bookmark_of_absent row s tap_stream_id k hv⟩

/-- Witness for C5 (amended): a truthy value overwrites both bookmark
fields; an absent field is a no-op. -/
theorem update_bookmark_overwrite_iff_truthy_witness :
    (get_bookmark (update_bookmark [("k", Value.int 7)] ⟨[]⟩ "s" (some "k")) "s"
        "replication_key_value"
      = some (Value.str (class_to_string (Value.int 7) (className (Value.int 7))))
      ∧ get_bookmark (update_bookmark [("k", Value.int 7)] ⟨[]⟩ "s" (some "k")) "s"
          "replication_key_type"
        = some (Value.str (className (Value.int 7))))
    ∧ update_bookmark [("x", Value.int 7)] ⟨[]⟩ "s" (some "k") = ⟨[]⟩ :=
  ⟨(update_bookmark_overwrite_iff_truthy [("k", Value.int 7)] ⟨[]⟩ "s" "k").1
      (Value.int 7) (by decide) (by decide),
   (update_bookmark_overwrite_iff_truthy [("x", Value.int 7)] ⟨[]⟩ "s" "k").2.2
      (by decide)⟩

/-- C10: any falsy replication-key value (null, `False`, `0`, the empty
string, the empty array) leaves the state entirely unchanged, as does an
absent field; and whenever `update_bookmark` does change the state, the
stored `replication_key_value` is the serialization of a truthy value. -/
theorem falsy_never_advances (row : Row) (s : State) (tap_stream_id k : String) :
    (∀ v, List.lookup k row = some v → truthy v = false →
      update_bookmark row s tap_stream_id (some k) = s)
    ∧ (List.lookup k row = none → update_bookmark row s tap_stream_id (some k) = s)
    ∧ (update_bookmark row s tap_stream_id (some k) = s
       ∨ ∃ v, List.lookup k row = some v ∧ truthy v = true
          ∧ get_bookmark (update_bookmark row s tap_stream_id (some k)) tap_stream_id
              "replication_key_value"
            = some (Value.str (class_to_string v (className v)))) := by
  refine ⟨fun v hv ht => update_bookmark_of_falsy row s tap_stream_id k v hv ht,
    fun hv => update_bookmark_of_absent row s tap_stream_id k hv, ?_⟩
  cases hl : List.lookup k row with
  | none => exact Or.inl (update_bookmark_of_absent row s tap_stream_id k hl)
  | some v =>
    by_cases hw : truthy v = true
    · exact Or.inr ⟨v, rfl, hw, get_value_update_truthy row s tap_stream_id k v hl hw⟩
    · simp only [Bool.not_eq_true] at hw
      exact Or.inl (update_bookmark_of_falsy row s tap_stream_id k v hl hw)

/-- Witness for C10 at each falsy shape of the embedding. -/
theorem falsy_never_advances_witness :
    update_bookmark [("k", Value.int 0)]
        ⟨[("s", [("replication_key_value", Value.str "5")])]⟩ "s" (some "k")
      = ⟨[("s", [("replication_key_value", Value.str "5")])]⟩
    ∧ update_bookmark [("k", Value.str "")]
        ⟨[("s", [("replication_key_value", Value.str "5")])]⟩ "s" (some "k")
      = ⟨[("s", [("replication_key_value", Value.str "5")])]⟩
    ∧ update_bookmark [("k", Value.bool false)]
        ⟨[("s", [("replication_key_value", Value.str "5")])]⟩ "s" (some "k")
      = ⟨[("s", [("replication_key_value", Value.str "5")])]⟩
    ∧ update_bookmark [("k", Value.null)]
        ⟨[("s", [("replication_key_value", Value.str "5")])]⟩ "s" (some "k")
      = ⟨[("s", [("replication_key_value", Value.str "5")])]⟩
    ∧ update_bookmark [("k", Value.list [])]
        ⟨[("s", [("replication_key_value", Value.str "5")])]⟩ "s" (some "k")
      = ⟨[("s", [("replication_key_value", Value.str "5")])]⟩
    ∧ update_bookmark [("x", Value.int 9)]
        ⟨[("s", [("replication_key_value", Value.str "5")])]⟩ "s" (some "k")
      = ⟨[("s", [("replication_key_value", Value.str "5")])]⟩ :=
  ⟨(falsy_never_advances [("k", Value.int 0)]
      ⟨[("s", [("replication_key_value", Value.str "5")])]⟩ "s" "k").1
      (Value.int 0) (by decide) (by decide),
   (falsy_never_advances [("k", Value.str "")]
      ⟨[("s", [("replication_key_value", Value.str "5")])]⟩ "s" "k").1
      (Value.str "") (by decide) (by decide),
   (falsy_never_advances [("k", Value.bool false)]
      ⟨[("s", [("replication_key_value", Value.str "5")])]⟩ "s" "k").1
      (Value.bool false) (by decide) (by decide),
   (falsy_never_advances [("k", Value.null)]
      ⟨[("s", [("replication_key_value", Value.str "5")])]⟩ "s" "k").1
      Value.null (by decide) (by decide),
   (falsy_never_advances [("k", Value.list [])]
      ⟨[("s", [("replication_key_value", Value.str "5")])]⟩ "s" "k").1
      (Value.list []) (by decide) (by decide),
   (falsy_never_advances [("x", Value.int 9)]
      ⟨[("s", [("replication_key_value", Value.str "5")])]⟩ "s" "k").2.1
      (by decide)⟩

/-- C2 counterexample: a `replication_key_value` bookmark that exists but is
the empty string (falsy) produces the empty filter, not the claimed
`gte` filter — the gate in `sync_collection` is truthiness, not existence. -/
theorem find_filter_exists_counterexample :
    (List.lookup "replication_key_value"
        [("replication_key_value", Value.str ""),
         ("replication_key_type", Value.str "str")]).isSome = true
    ∧ buildFindFilter (some "k")
        [("replication_key_value", Value.str ""),
         ("replication_key_type", Value.str "str")]
      = FindFilter.empty
    ∧ buildFindFilter (some "k")
        [("replication_key_value", Value.str ""),
         ("replication_key_type", Value.str "str")]
      ≠ FindFilter.gte (some "k")
          (string_to_class (Value.str "")
            (List.lookup "replication_key_type"
              [("replication_key_value", Value.str ""),
               ("replication_key_type", Value.str "str")])) := by
  decide

/-- C2 (amended): when the stored `replication_key_value` is truthy, the
filter is exactly the inclusive bound
`{keyName: {gte; deserialize(value, type)}}`; when it is absent or falsy the
filter is the empty, unconstrained one.  The bound is inclusive: a row whose
key equals the bound matches, and a row matches exactly when its key is ≥
the bound. -/
theorem find_filter_truthy_bookmark (replication_key_name : Option String)
    (stream_state : Dict) :
    buildFindFilter replication_key_name stream_state
      = (if truthyOpt (List.lookup "replication_key_value" stream_state) then
          FindFilter.gte replication_key_name
            (string_to_class
              ((List.lookup "replication_key_value" stream_state).getD Value.null)
              (List.lookup "replication_key_type" stream_state))
        else FindFilter.empty)
    ∧ (∀ (k : String) (bound w : Value) (row : Row), List.lookup k row = some w →
        matchesFindFilter (FindFilter.gte (some k) bound) row = Value.le bound w)
    ∧ (∀ (k : String) (bound : Value) (row : Row), List.lookup k row = some bound →
        matchesFindFilter (FindFilter.gte (some k) bound) row = true) := by
  refine ⟨?_, ?_, ?_⟩
  · unfold buildFindFilter
    cases h : List.lookup "replication_key_value" stream_state with
    | none => simp [truthyOpt, h]
    | some v =>
      by_cases hv : truthy v = true
      · simp [truthyOpt, h, hv]
      · simp only [Bool.not_eq_true] at hv
        simp [truthyOpt, h, hv]
  · intro k bound w row h
    simp [matchesFindFilter, h]
  · intro k bound row h
    simp [matchesFindFilter, h, Value.le_refl]

/-- Witness for C2 (amended) at a concrete bookmarked state and row. -/
theorem find_filter_truthy_bookmark_witness :
    buildFindFilter (some "k")
        [("replication_key_value", Value.str "5"),
         ("replication_key_type", Value.str "int")]
      = (if truthyOpt (List.lookup "replication_key_value"
            [("replication_key_value", Value.str "5"),
             ("replication_key_type", Value.str "int")]) then
          FindFilter.gte (some "k")
            (string_to_class
              ((List.lookup "replication_key_value"
                [("replication_key_value", Value.str "5"),
                 ("replication_key_type", Value.str "int")]).getD Value.null)
              (List.lookup "replication_key_type"
                [("replication_key_value", Value.str "5"),
                 ("replication_key_type", Value.str "int")]))
        else FindFilter.empty)
    ∧ matchesFindFilter (FindFilter.gte (some "k") (Value.int 5))
        [("k", Value.int 4)] = Value.le (Value.int 5) (Value.int 4)
    ∧ matchesFindFilter (FindFilter.gte (some "k") (Value.int 5))
        [("k", Value.int 5)] = true :=
  ⟨(find_filter_truthy_bookmark (some "k")
      [("replication_key_value", Value.str "5"),
       ("replication_key_type", Value.str "int")]).1,
   (find_filter_truthy_bookmark (some "k")
      [("replication_key_value", Value.str "5"),
       ("replication_key_type", Value.str "int")]).2.1 "k" (Value.int 5)
      (Value.int 4) [("k", Value.int 4)] (by decide),
   (find_filter_truthy_bookmark (some "k")
      [("replication_key_value", Value.str "5"),
       ("replication_key_type", Value.str "int")]).2.2 "k" (Value.int 5)
      [("k", Value.int 5)] (by decide)⟩

/-- C3: a missing `version` bookmark (first run) mints the wall-clock
version in milliseconds; a stored version is returned unchanged; and in
both cases the resolved version is written back into the state before any
row is processed — the STATE snapshot emitted ahead of the loop (position 1
on a first run, 0 otherwise, independent of the rows) is exactly the state
with the version written. -/
theorem version_resolution (tap_stream_id destination : String)
    (replication_key_name : Option String) (s : State) (rows : List Row)
    (now_millis : Int) (N : Nat) :
    (get_bookmark s tap_stream_id "version" = none →
      resolvedVersion s tap_stream_id now_millis = Value.int now_millis)
    ∧ (∀ v, get_bookmark s tap_stream_id "version" = some v →
        resolvedVersion s tap_stream_id now_millis = v)
    ∧ get_bookmark (write_bookmark s tap_stream_id "version"
          (resolvedVersion s tap_stream_id now_millis)) tap_stream_id "version"
      = some (resolvedVersion s tap_stream_id now_millis)
    ∧ ((sync_collection tap_stream_id destination replication_key_name s rows
          now_millis N).messages.drop
        (if (get_bookmark s tap_stream_id "version").isNone then 1 else 0)).head?
      = some (Message.stateMsg (write_bookmark s tap_stream_id "version"
          (resolvedVersion s tap_stream_id now_millis))) := by
  refine ⟨?_, ?_, get_bookmark_write_self _ _ _ _, ?_⟩
  · intro h
    simp [resolvedVersion, h]
  · intro v h
    simp [resolvedVersion, h]
  · rw [sync_collection_messages_shape]
    cases h : get_bookmark s tap_stream_id "version" with
    | none => simp [h]
    | some v => simp [h]

/-- Witness for C3: a first run (no stored version) mints the clock value
and snapshots it before the rows; a run with a stored version reuses it. -/
theorem version_resolution_witness :
    resolvedVersion ⟨[]⟩ "s" 7 = Value.int 7
    ∧ resolvedVersion ⟨[("s", [("version", Value.int 5)])]⟩ "s" 7 = Value.int 5
    ∧ get_bookmark (write_bookmark ⟨[]⟩ "s" "version" (resolvedVersion ⟨[]⟩ "s" 7))
        "s" "version" = some (resolvedVersion ⟨[]⟩ "s" 7)
    ∧ ((sync_collection "s" "d" (some "k") ⟨[]⟩ [[("k", Value.int 1)]] 7 1000).messages.drop
        (if (get_bookmark ⟨[]⟩ "s" "version").isNone then 1 else 0)).head?
      = some (Message.stateMsg (write_bookmark ⟨[]⟩ "s" "version"
          (resolvedVersion ⟨[]⟩ "s" 7))) :=
  ⟨(version_resolution "s" "d" (some "k") ⟨[]⟩ [[("k", Value.int 1)]] 7 1000).1
      (by decide),
   (version_resolution "s" "d" (some "k") ⟨[("s", [("version", Value.int 5)])]⟩
      [[("k", Value.int 1)]] 7 1000).2.1 (Value.int 5) (by decide),
   (version_resolution "s" "d" (some "k") ⟨[]⟩ [[("k", Value.int 1)]] 7 1000).2.2.1,
   (version_resolution "s" "d" (some "k") ⟨[]⟩ [[("k", Value.int 1)]] 7 1000).2.2.2⟩

/-- C4: the initial ACTIVATE_VERSION message (the very first message, ahead
of every row) is emitted iff the run is a first run; the final message is
always an ACTIVATE_VERSION for the same resolved version; and those are the
only ACTIVATE_VERSION messages of the run. -/
theorem activation_emission (tap_stream_id destination : String)
    (replication_key_name : Option String) (s : State) (rows : List Row)
    (now_millis : Int) (N : Nat) :
    ((sync_collection tap_stream_id destination replication_key_name s rows
          now_millis N).messages.head?
        = some (Message.activateVersion destination
            (resolvedVersion s tap_stream_id now_millis))
      ↔ get_bookmark s tap_stream_id "version" = none)
    ∧ (sync_collection tap_stream_id destination replication_key_name s rows
          now_millis N).messages.getLast?
      = some (Message.activateVersion destination
          (resolvedVersion s tap_stream_id now_millis))
    ∧ List.countP isActivateMsg
        (sync_collection tap_stream_id destination replication_key_name s rows
          now_millis N).messages
      = (if (get_bookmark s tap_stream_id "version").isNone then 2 else 1) := by
  rw [sync_collection_messages_shape]
  refine ⟨?_, ?_, ?_⟩
  · cases h : get_bookmark s tap_stream_id "version" with
    | none => simp [h]
    | some v => simp [h]
  · rw [show (if (get_bookmark s tap_stream_id "version").isNone then
          [Message.activateVersion destination (resolvedVersion s tap_stream_id now_millis)]
        else [])
        ++ (Message.stateMsg (write_bookmark s tap_stream_id "version"
              (resolvedVersion s tap_stream_id now_millis))
            :: ((syncLoop destination tap_stream_id replication_key_name
                  (resolvedVersion s tap_stream_id now_millis) N rows
                  ⟨[], 0, write_bookmark s tap_stream_id "version"
                      (resolvedVersion s tap_stream_id now_millis), []⟩).messages
                ++ [Message.activateVersion destination
                      (resolvedVersion s tap_stream_id now_millis)]))
      = ((if (get_bookmark s tap_stream_id "version").isNone then
            [Message.activateVersion destination (resolvedVersion s tap_stream_id now_millis)]
          else [])
          ++ (Message.stateMsg (write_bookmark s tap_stream_id "version"
                (resolvedVersion s tap_stream_id now_millis))
              :: (syncLoop destination tap_stream_id replication_key_name
                    (resolvedVersion s tap_stream_id now_millis) N rows
                    ⟨[], 0, write_bookmark s tap_stream_id "version"
                        (resolvedVersion s tap_stream_id now_millis), []⟩).messages))
          ++ [Message.activateVersion destination (resolvedVersion s tap_stream_id now_millis)]
      from by simp]
    exact List.getLast?_concat _
  · have hloop := syncLoop_count_activate destination tap_stream_id replication_key_name
      (resolvedVersion s tap_stream_id now_millis) N rows
      ⟨[], 0, write_bookmark s tap_stream_id "version"
          (resolvedVersion s tap_stream_id now_millis), []⟩
    cases h : get_bookmark s tap_stream_id "version" with
    | none => simp [h, List.countP_append, List.countP_cons, hloop, isActivateMsg, isStateMsg]
    | some v => simp [h, List.countP_append, List.countP_cons, hloop, isActivateMsg, isStateMsg]

theorem sync_collection_getLast (tap_stream_id destination : String)
    (key : Option String) (s : State) (rows : List Row) (now_millis : Int) (N : Nat) :
    (sync_collection tap_stream_id destination key s rows now_millis N).messages.getLast?
      = some (Message.activateVersion destination
          (resolvedVersion s tap_stream_id now_millis)) := by
  rw [sync_collection_messages_shape]
  rw [show (if (get_bookmark s tap_stream_id "version").isNone then
          [Message.activateVersion destination (resolvedVersion s tap_stream_id now_millis)]
        else [])
        ++ (Message.stateMsg (write_bookmark s tap_stream_id "version"
              (resolvedVersion s tap_stream_id now_millis))
            :: ((syncLoop destination tap_stream_id key
                  (resolvedVersion s tap_stream_id now_millis) N rows
                  ⟨[], 0, write_bookmark s tap_stream_id "version"
                      (resolvedVersion s tap_stream_id now_millis), []⟩).messages
                ++ [Message.activateVersion destination
                      (resolvedVersion s tap_stream_id now_millis)]))
      = ((if (get_bookmark s tap_stream_id "version").isNone then
            [Message.activateVersion destination (resolvedVersion s tap_stream_id now_millis)]
          else [])
          ++ (Message.stateMsg (write_bookmark s tap_stream_id "version"
                (resolvedVersion s tap_stream_id now_millis))
              :: (syncLoop destination tap_stream_id key
                    (resolvedVersion s tap_stream_id now_millis) N rows
                    ⟨[], 0, write_bookmark s tap_stream_id "version"
                        (resolvedVersion s tap_stream_id now_millis), []⟩).messages))
          ++ [Message.activateVersion destination (resolvedVersion s tap_stream_id now_millis)]
      from by simp]
  exact List.getLast?_concat _

/-- C6: with checkpoint period `N`, a run over `R` rows emits exactly
`R / N + 1` STATE messages: the single one ahead of the loop plus one after
every `N`th row; finalization (the last message) is an ACTIVATE_VERSION, not
a STATE. -/
theorem checkpoint_state_count (tap_stream_id destination : String)
    (replication_key_name : Option String) (s : State) (rows : List Row)
    (now_millis : Int) (N : Nat) (hN : 0 < N) :
    List.countP isStateMsg
        (sync_collection tap_stream_id destination replication_key_name s rows
          now_millis N).messages
      = rows.length / N + 1
    ∧ (sync_collection tap_stream_id destination replication_key_name s rows
          now_millis N).messages.getLast?
      = some (Message.activateVersion destination
          (resolvedVersion s tap_stream_id now_millis)) := by
  refine ⟨?_, sync_collection_getLast tap_stream_id destination replication_key_name
    s rows now_millis N⟩
  rw [sync_collection_messages_shape]
  have hloop := syncLoop_count_state destination tap_stream_id replication_key_name
    (resolvedVersion s tap_stream_id now_millis) N rows
    ⟨[], 0, write_bookmark s tap_stream_id "version"
        (resolvedVersion s tap_stream_id now_millis), []⟩
  cases h : get_bookmark s tap_stream_id "version" with
  | none =>
    simp only [h, Option.isNone_none, if_true, List.countP_append, List.countP_cons,
      hloop]
    simp [isStateMsg, isActivateMsg]
  | some v =>
    simp only [h, Option.isNone_some, Bool.false_eq_true, if_false,
      List.countP_append, List.countP_cons, hloop]
    simp [isStateMsg, isActivateMsg]

/-- Witness for C6: three rows with period 2 give `3 / 2 + 1 = 2` STATE
messages and the run ends with the ACTIVATE_VERSION message. -/
theorem checkpoint_state_count_witness :
    List.countP isStateMsg
        (sync_collection "s" "d" (some "k") ⟨[]⟩
          [[("k", Value.int 1)], [("k", Value.int 2)], [("k", Value.int 3)]]
          7 2).messages
      = ([[("k", Value.int 1)], [("k", Value.int 2)], [("k", Value.int 3)]] : List Row).length / 2 + 1
    ∧ (sync_collection "s" "d" (some "k") ⟨[]⟩
          [[("k", Value.int 1)], [("k", Value.int 2)], [("k", Value.int 3)]]
          7 2).messages.getLast?
      = some (Message.activateVersion "d" (resolvedVersion ⟨[]⟩ "s" 7)) :=
  checkpoint_state_count "s" "d" (some "k") ⟨[]⟩
    [[("k", Value.int 1)], [("k", Value.int 2)], [("k", Value.int 3)]] 7 2 (by decide)

/-- C7 counterexample: a single row introducing two distinct new field names
triggers exactly one SCHEMA message, not one per distinct new field name. -/
theorem schema_per_field_name_counterexample :
    List.countP isSchemaMsg
        (sync_collection "s" "d" (some "k") ⟨[]⟩
          [[("_id", Value.int 1), ("k", Value.int 1)]] 0 1000).messages = 1
    ∧ (([("_id", Value.int 1), ("k", Value.int 1)] : Row).map Prod.fst).dedup.length = 2
    ∧ (1 : Nat) ≠ 2 := by
  decide

/-- C7 (amended): a SCHEMA message is emitted exactly once per row that
introduces at least one previously-unseen field name — newness judged by
field-name presence only (`newFieldRowCount` never inspects value types), so
a field re-appearing with a different value type triggers nothing, and a row
adding several new names still yields a single SCHEMA message. -/
theorem schema_once_per_new_name_row (tap_stream_id destination : String)
    (replication_key_name : Option String) (s : State) (rows : List Row)
    (now_millis : Int) (N : Nat) :
    List.countP isSchemaMsg
        (sync_collection tap_stream_id destination replication_key_name s rows
          now_millis N).messages
      = newFieldRowCount [] rows := by
  rw [sync_collection_messages_shape]
  have hloop := syncLoop_count_schema destination tap_stream_id replication_key_name
    (resolvedVersion s tap_stream_id now_millis) N rows
    ⟨[], 0, write_bookmark s tap_stream_id "version"
        (resolvedVersion s tap_stream_id now_millis), []⟩ [] (by simp)
  cases h : get_bookmark s tap_stream_id "version" with
  | none =>
    simp only [h, Option.isNone_none, if_true, List.countP_append, List.countP_cons,
      hloop]
    simp [isSchemaMsg, isActivateMsg, isStateMsg]
  | some v =>
    simp only [h, Option.isNone_some, Bool.false_eq_true, if_false,
      List.countP_append, List.countP_cons, hloop]
    simp [isSchemaMsg, isActivateMsg, isStateMsg]

/-- C8 counterexample: with no replication-key designation in the metadata,
`sync_collection` surfaces no error before the cursor: the (empty) filter is
built and the whole run completes normally; and were a bookmark present, the
filter would even be built keyed by the missing (`None`) key name. -/
theorem missing_key_counterexample :
    (sync_collection "s" "d" none ⟨[]⟩ [] 7 1000).find_filter = FindFilter.empty
    ∧ (sync_collection "s" "d" none ⟨[]⟩ [] 7 1000).messages
      = [Message.activateVersion "d" (Value.int 7),
         Message.stateMsg ⟨[("s", [("version", Value.int 7)])]⟩,
         Message.activateVersion "d" (Value.int 7)]
    ∧ buildFindFilter none
        [("replication_key_value", Value.str "5"),
         ("replication_key_type", Value.str "int")]
      = FindFilter.gte none (Value.int 5) := by
  decide

/-- C8 (amended): `sync_collection` performs no replication-key validation:
when the metadata has no replication-key designation the query filter is
still built (unconstrained when no truthy bookmark exists), every row is
still processed and the run still reaches finalization — no error is
surfaced before the cursor is opened; a failure could only come from the
external driver. -/
theorem missing_key_no_validation (tap_stream_id destination : String) (s : State)
    (rows : List Row) (now_millis : Int) (N : Nat) :
    (sync_collection tap_stream_id destination none s rows now_millis N).rows_saved
      = rows.length
    ∧ (sync_collection tap_stream_id destination none s rows now_millis N).messages.getLast?
      = some (Message.activateVersion destination
          (resolvedVersion s tap_stream_id now_millis))
    ∧ (sync_collection tap_stream_id destination none s rows now_millis N).find_filter
      = buildFindFilter none
          ((List.lookup tap_stream_id
            (write_bookmark s tap_stream_id "version"
              (resolvedVersion s tap_stream_id now_millis)).bookmarks).getD []) :=
  ⟨sync_collection_rows_saved tap_stream_id destination none s rows now_millis N,
   sync_collection_getLast tap_stream_id destination none s rows now_millis N,
   sync_collection_find_filter tap_stream_id destination none s rows now_millis N⟩

theorem dropLast_extend {α : Type} (A Lm T2 : List α) (st a : α) :
    A ++ (st :: ((Lm ++ T2) ++ [a])) = (A ++ (st :: (Lm ++ [a]))).dropLast ++ (T2 ++ [a]) := by
  rw [show A ++ (st :: (Lm ++ [a])) = (A ++ (st :: Lm)) ++ [a] from by simp]
  rw [List.dropLast_concat]
  simp

/-- C9: every message emitted while processing `rows` — in particular every
STATE snapshot, whose content was captured (deep-copied) at emission time —
is literally unchanged when the same run goes on to process further rows:
the extended run's output extends the original output (minus only the final
ACTIVATE_VERSION message), so later bookmark mutations never alter an
already-emitted STATE message. -/
theorem emitted_state_stability (tap_stream_id destination : String)
    (replication_key_name : Option String) (s : State) (rows ext : List Row)
    (now_millis : Int) (N : Nat) :
    ∃ t, (sync_collection tap_stream_id destination replication_key_name s
          (rows ++ ext) now_millis N).messages
      = (sync_collection tap_stream_id destination replication_key_name s rows
          now_millis N).messages.dropLast ++ t := by
  rw [sync_collection_messages_shape, sync_collection_messages_shape]
  rw [syncLoop_append]
  rw [syncLoop_messages_decomp destination tap_stream_id replication_key_name
    (resolvedVersion s tap_stream_id now_millis) N ext
    (syncLoop destination tap_stream_id replication_key_name
      (resolvedVersion s tap_stream_id now_millis) N rows
      ⟨[], 0, write_bookmark s tap_stream_id "version"
          (resolvedVersion s tap_stream_id now_millis), []⟩)]
  exact ⟨_, dropLast_extend _ _ _ _ _⟩
